import Mathlib

/-!
Verification of the Speech-Synchronized Presentation Engine and the
Render-Surface Control Protocol of the tava onboarding app.

The TypeScript source is shallowly embedded: JS strings are `List Char`,
`text.split(" ")` is `splitSpace`, joining with single spaces is `joinSpace`,
millisecond quantities computed by floating-point division are modelled over
`ℚ` (the arithmetic identities proved are exact), and effectful control flow
(fetch / file write / audio load / playback callbacks) is modelled as pure
functions from an explicit environment describing the outcomes of the
external calls to a trace of the observable effects.
-/

namespace Tava

/-- JS `text.split(" ")` on a list-of-characters representation of the
string: splits at every single space, keeping empty segments, and returns
`[[]]` on the empty string (JS: `"".split(" ") = [""]`). -/
def splitSpace : List Char → List (List Char)
  | [] => [[]]
  | c :: rest =>
    if c = ' ' then [] :: splitSpace rest
    else
      match splitSpace rest with
      | [] => [[c]]
      | w :: ws => (c :: w) :: ws

/-- JS `parts.join(" ")`: interleave a single space between the parts. -/
def joinSpace : List (List Char) → List Char
  | [] => []
  | [w] => w
  | w :: ws => w ++ ' ' :: joinSpace ws

/-- One step of the `words.forEach` loop body of `splitIntoChunks`
(TrainingScreen.tsx / WelcomeScreen.tsx): the mutable pair is
`(chunks, currentChunk)`; `testChunk` is
`currentChunk ? currentChunk + " " + word : word`; when
`testChunk.length > 50 && currentChunk` the current chunk is pushed and the
word starts a new one, otherwise the word is absorbed. -/
def chunkFold (st : List (List Char) × List Char) (word : List Char) :
    List (List Char) × List Char :=
  let chunks := st.1
  let currentChunk := st.2
  let testChunk := if currentChunk ≠ [] then currentChunk ++ ' ' :: word else word
  if testChunk.length > 50 ∧ currentChunk ≠ [] then
    (chunks ++ [currentChunk], word)
  else
    (chunks, testChunk)

/-- Embedding of `splitIntoChunks` (TrainingScreen.tsx lines 98–119, identically
WelcomeScreen.tsx lines 149–170): greedy accumulation of space-split words
into ≤50-character lines, the trailing partial line pushed at the end when
non-empty. -/
def splitIntoChunks (text : List Char) : List (List Char) :=
  let st := (splitSpace text).foldl chunkFold ([], [])
  if st.2 ≠ [] then st.1 ++ [st.2] else st.1

/-- The glue contributed by a list of further words when joined after a
non-empty prefix: a space before each word. -/
def spaceGlue : List (List Char) → List Char
  | [] => []
  | w :: ws => ' ' :: (w ++ spaceGlue ws)

/-- A chunk is "well-formed" when it fits on one ≤50-character line or
contains no space at all (i.e. it is a single word). -/
def chunkOk (c : List Char) : Prop := c.length ≤ 50 ∨ ' ' ∉ c

/-- JS `chunk.split(" ").length`, the word count the presenter assigns to a
chunk (TrainingScreen.tsx lines 131 and 139). -/
def wordCount (chunk : List Char) : ℕ := (splitSpace chunk).length

/-- Sum of the per-chunk word counts (`totalWords` in
`showSubtitlesWithAudio`). -/
def totalWordCount (chunks : List (List Char)) : ℕ := (chunks.map wordCount).sum

/-- An observable display transition performed by the subtitle presenter:
either a chunk shown for a span of milliseconds, or the cleared display held
for a span of milliseconds. -/
inductive SubtitleEvent where
  | display (text : List Char) (durationMs : ℚ)
  | gap (durationMs : ℚ)
deriving DecidableEq

/-- The `for` loop of `showSubtitlesWithAudio` (TrainingScreen.tsx lines
138–153): each chunk is shown for `wordCount * msPerWord`; between
consecutive chunks (`i < chunks.length - 1`) the display is cleared for a
fixed 100 ms. -/
def presentLoop (msPerWord : ℚ) : List (List Char) → List SubtitleEvent
  | [] => []
  | [c] => [.display c (wordCount c * msPerWord)]
  | c :: rest => .display c (wordCount c * msPerWord) :: .gap 100 :: presentLoop msPerWord rest

/-- Embedding of `showSubtitlesWithAudio` (TrainingScreen.tsx lines 130–154, identically
WelcomeScreen.tsx lines 181–212): computes
`msPerWord = audioDurationMs / totalWords` over all chunks and runs the
display loop. -/
def showSubtitlesWithAudio (chunks : List (List Char)) (audioDurationMs : ℚ) :
    List SubtitleEvent :=
  let msPerWord := audioDurationMs / (totalWordCount chunks : ℚ)
  presentLoop msPerWord chunks

/-- Total time the display shows some chunk (the gaps excluded). -/
def displayTotal : List SubtitleEvent → ℚ
  | [] => 0
  | .display _ d :: es => d + displayTotal es
  | .gap _ :: es => displayTotal es

/-- The subtitle text left visible after a finite event sequence ran
(empty when nothing was ever shown). -/
def lastSubtitle : List SubtitleEvent → List Char
  | [] => []
  | [.display t _] => t
  | [.gap _] => []
  | _ :: es => lastSubtitle es

/-- Outcome of the `fetch` call to the speech provider: either the promise
rejects (network/transport failure) or a response with `ok`/`status` fields
arrives. -/
inductive FetchOutcome where
  | thrown
  | response (ok : Bool) (status : ℕ)
deriving DecidableEq

/-- Environment for one run of `playElevenLabsAudio`: the outcomes of each
external suspension point in its body. `durationMillis = none` models the
field being absent from the load status; playback may or may not eventually
report `didJustFinish`. -/
structure PlayEnv where
  fetch : FetchOutcome
  writeOk : Bool
  createOk : Bool
  statusLoaded : Bool
  durationMillis : Option ℕ
  playbackFinishes : Bool
deriving DecidableEq

/-- JS truthiness of the optional numeric `durationMillis`: absent and `0`
are falsy. -/
def jsTruthyNum : Option ℕ → Bool
  | none => false
  | some n => n ≠ 0

/-- Observable outcome of one `playElevenLabsAudio` run: how many times
`onFinish` fired, the arguments passed to `onDurationReady`, and whether a
new sound was assigned to `soundRef`. -/
structure PlayOutcome where
  onFinishCount : ℕ
  durationCalls : List ℕ
  soundAssigned : Bool
deriving DecidableEq

/-- Embedding of `playElevenLabsAudio` (TrainingScreen.tsx lines 156–239, identically
WelcomeScreen.tsx lines 222–307) as a trace function. Any throw inside the
`try` (fetch rejection, `!response.ok`, file write failure, sound creation
failure) reaches the `catch`, which calls `onFinish()` once as a fallback.
On full success `onDurationReady` is called iff the initial status is
loaded, `durationMillis` is truthy and the callback was supplied; `onFinish`
fires from the playback-status subscription iff playback eventually reports
`didJustFinish`. -/
def playElevenLabsAudio (env : PlayEnv) (hasDurationCb : Bool) : PlayOutcome :=
  match env.fetch with
  | .thrown => ⟨1, [], false⟩
  | .response ok _ =>
    if !ok then ⟨1, [], false⟩
    else if !env.writeOk then ⟨1, [], false⟩
    else if !env.createOk then ⟨1, [], false⟩
    else
      let calls :=
        if env.statusLoaded && jsTruthyNum env.durationMillis && hasDurationCb then
          [env.durationMillis.getD 0]
        else []
      ⟨if env.playbackFinishes then 1 else 0, calls, true⟩

/-- Predicate: `env` describes a run whose synthesis/decode pipeline fails before a
sound is playing: the fetch rejects, the provider answers non-ok, the file
write throws, or the sound fails to load. -/
def synthesisFails (env : PlayEnv) : Prop :=
  env.fetch = .thrown ∨
    (∃ s, env.fetch = .response false s) ∨
    env.writeOk = false ∨ env.createOk = false

/-- Outcome of one narration session (`speakTrainingMessage`,
TrainingScreen.tsx lines 241–272, and its twins in WelcomeScreen.tsx): the
audio trace plus the subtitle events, which start iff `onDurationReady`
delivered a duration (guarded by the `subtitlesStarted` flag — only the
first delivery starts them). -/
structure SessionOutcome where
  onFinishCount : ℕ
  subtitleEvents : List SubtitleEvent
deriving DecidableEq

/-- One run of synthesize → play → synchronize-subtitles for a text under
environment `env`. -/
def speakSession (env : PlayEnv) (text : List Char) : SessionOutcome :=
  let chunks := splitIntoChunks text
  let play := playElevenLabsAudio env true
  match play.durationCalls with
  | [] => ⟨play.onFinishCount, []⟩
  | d :: _ => ⟨play.onFinishCount, showSubtitlesWithAudio chunks (d : ℚ)⟩

/-- Observable resource actions of the audio playback code. -/
inductive AudioEvent where
  | unload (id : ℕ)
  | create (id : ℕ)
  | assign (id : ℕ)
deriving DecidableEq

/-- The `soundRef` holder together with the ghost list of live (created and
not yet unloaded) audio resources. -/
structure ControllerState where
  current : Option ℕ
  live : List ℕ
deriving DecidableEq

/-- The load sequence of `playElevenLabsAudio` (TrainingScreen.tsx lines
206–217): `if (soundRef.current) await soundRef.current.unloadAsync();`
then `Audio.Sound.createAsync`, then `soundRef.current = sound`. The new
resource is identified by `newId`. -/
def loadSound (st : ControllerState) (newId : ℕ) : ControllerState × List AudioEvent :=
  match st.current with
  | some a =>
    (⟨some newId, (st.live.filter (· ≠ a)) ++ [newId]⟩,
      [.unload a, .create newId, .assign newId])
  | none => (⟨some newId, st.live ++ [newId]⟩, [.create newId, .assign newId])

/-- A sequence of consecutive loads on the same controller. -/
def runLoads (st : ControllerState) : List ℕ → ControllerState
  | [] => st
  | id :: ids => runLoads (loadSound st id).1 ids

/-- The controller invariant: exactly the resource referenced by `soundRef`
is live. -/
def controllerInv (st : ControllerState) : Prop := st.live = st.current.toList

/-- Screen-level state touched (or not) by the unmount cleanup effect:
the `soundRef` slot, the `currentSubtitle` React state, and the number of
pending timer steps of a running `showSubtitlesWithAudio` loop. -/
structure ScreenState where
  sound : Option ℕ
  currentSubtitle : List Char
  pendingSubtitleTimers : ℕ
deriving DecidableEq

/-- The unmount cleanup effect (TrainingScreen.tsx lines 44–50):
`if (soundRef.current) soundRef.current.unloadAsync();` — it unloads the
current sound and touches nothing else: no timer is cancelled and the
subtitle state is not written. -/
def unmountCleanup (st : ScreenState) : ScreenState × List AudioEvent :=
  match st.sound with
  | some a => (st, [.unload a])
  | none => (st, [])

/-- Does the character list `s` start with `pat`? -/
def leadsWith : List Char → List Char → Bool
  | _, [] => true
  | [], _ :: _ => false
  | c :: cs, p :: ps => c = p && leadsWith cs ps

/-- JS `s.includes(pat)`: substring containment. -/
def jsIncludes : List Char → List Char → Bool
  | [], pat => leadsWith [] pat
  | c :: cs, pat => leadsWith (c :: cs) pat || jsIncludes cs pat

def failedMarker : List Char := "Failed".toList

def fatalMarker : List Char := "Fatal".toList

def avatarLoadedMarker : List Char := "Avatar loaded".toList

def sceneReadyMarker : List Char := "Scene ready".toList

/-- The Avatar3D `onMessage` handler (Avatar3D.tsx): given the raw string
from the rendering surface and the previous error state, it sets the error
when the message contains `"Failed"` or `"Fatal"`, and afterwards clears it
when the message contains `"Avatar loaded"` or `"Scene ready"`; any other
message leaves the state untouched. It performs no parsing at all. -/
def avatarOnMessage (message : List Char) (error : Option (List Char)) :
    Option (List Char) :=
  let e1 :=
    if jsIncludes message failedMarker || jsIncludes message fatalMarker then
      some message
    else error
  if jsIncludes message avatarLoadedMarker || jsIncludes message sceneReadyMarker then
    none
  else e1

/-- Result of the `JSON.parse` attempt inside the rendering surface's
`window` message listener: the parse throws, or yields an object whose
`action` field is absent or some string. -/
inductive SurfaceParse where
  | thrown
  | parsed (action : Option (List Char))
deriving DecidableEq

/-- Actions the surface listener performs on a recognized command. -/
inductive SurfaceAction where
  | zoomCamera
  | loadTalkingAnimation
deriving DecidableEq

def switchToTalkingAction : List Char := "switchToTalking".toList

/-- The rendering surface's `window` message listener (Avatar3D.tsx HTML,
`window.addEventListener('message', ...)`): the whole body is in a
`try`/`catch` whose catch only logs, so a throwing `JSON.parse` performs no
action; a parsed message acts only when `message.action === 'switchToTalking'`
(camera retarget plus talking-animation load), every other action value is
ignored. -/
def surfaceMessageListener : SurfaceParse → List SurfaceAction
  | .thrown => []
  | .parsed a =>
    if a = some switchToTalkingAction then [.zoomCamera, .loadTalkingAnimation]
    else []

/-- The `voice_settings` object sent with every synthesis request. -/
structure VoiceSettings where
  stability : ℚ
  similarity_boost : ℚ
  style : ℚ
  use_speaker_boost : Bool
deriving DecidableEq

/-- The outbound speech-synthesis request: method, API-key header name,
voice selector (path parameter) and the JSON body fields. -/
structure TTSRequest where
  method : List Char
  apiKeyHeader : List Char
  voiceId : List Char
  text : List Char
  model_id : List Char
  voice_settings : VoiceSettings
deriving DecidableEq

/-- Aria, the narrator voice (TrainingScreen.tsx line 159). -/
def narratorVoiceId : List Char := "9BWtsMINqrJLrRacOk9x".toList

/-- Chris, the male greeting voice (Avatar3D.tsx `playGreeting`). -/
def maleGreetingVoiceId : List Char := "iP95p4xoKVk53GoZ742B".toList

/-- Rachel, the female greeting voice (Avatar3D.tsx `playGreeting`). -/
def femaleGreetingVoiceId : List Char := "21m00Tcm4TlvDq8ikWAM".toList

/-- The fixed `voice_settings` literal shared by every call site. -/
def elevenLabsVoiceSettings : VoiceSettings :=
  ⟨7 / 10, 5 / 10, 0, false⟩

/-- The request object built by `playElevenLabsAudio` / `playGreeting`:
a POST with the `xi-api-key` header and the fixed model and settings. -/
def mkTTSRequest (voiceId text : List Char) : TTSRequest :=
  ⟨"POST".toList, "xi-api-key".toList, voiceId, text,
    "eleven_flash_v2_5".toList, elevenLabsVoiceSettings⟩

inductive AvatarGender where
  | male
  | female
deriving DecidableEq

/-- Embedding of `avatarGender === "male" ? "iP95p4xoKVk53GoZ742B" : "21m00Tcm4TlvDq8ikWAM"`
(Avatar3D.tsx `playGreeting`). -/
def greetingVoiceId : AvatarGender → List Char
  | .male => maleGreetingVoiceId
  | .female => femaleGreetingVoiceId

/-- The single narration request a `playElevenLabsAudio` call issues. -/
def narrationRequests (text : List Char) : List TTSRequest :=
  [mkTTSRequest narratorVoiceId text]

/-- The single greeting request a `playGreeting` call issues. -/
def greetingRequests (g : AvatarGender) (text : List Char) : List TTSRequest :=
  [mkTTSRequest (greetingVoiceId g) text]

/-- The enumerated set of voice identifiers appearing in the source. -/
def fixedVoiceIds : List (List Char) :=
  [narratorVoiceId, maleGreetingVoiceId, femaleGreetingVoiceId]

/-- Avatar3D component state relevant to the greeting guard: the
`hasPlayedGreeting` flag and counts of `switchToTalking` posts and
`playGreeting` starts. -/
structure GreetingState where
  hasPlayedGreeting : Bool
  switchMsgCount : ℕ
  greetingStartCount : ℕ
deriving DecidableEq

/-- One run of the `accepted` effect (Avatar3D.tsx lines 230–242): when
`accepted && webViewRef.current && !hasPlayedGreeting`, the flag is set, the
`switchToTalking` bridge command is posted and the greeting starts;
otherwise nothing happens. -/
def acceptedEffect (accepted webViewPresent : Bool) (st : GreetingState) :
    GreetingState :=
  if accepted && webViewPresent && !st.hasPlayedGreeting then
    ⟨true, st.switchMsgCount + 1, st.greetingStartCount + 1⟩
  else st

/-- Any sequence of effect runs, each with its own `accepted` /
webview-presence inputs (prop changes and re-renders). -/
def runAcceptedEffects (st : GreetingState) : List (Bool × Bool) → GreetingState
  | [] => st
  | (a, w) :: rest => runAcceptedEffects (acceptedEffect a w st) rest

/-- The component mounts with `hasPlayedGreeting = false` and nothing done. -/
def initialGreetingState : GreetingState := ⟨false, 0, 0⟩

theorem splitSpace_ne_nil (l : List Char) : splitSpace l ≠ [] := by
  cases l with
  | nil => simp [splitSpace]
  | cons c rest =>
    simp only [splitSpace]
    split
    · simp
    · split <;> simp

theorem joinSpace_cons (w : List Char) (ws : List (List Char)) (h : ws ≠ []) :
    joinSpace (w :: ws) = w ++ ' ' :: joinSpace ws := by
  cases ws with
  | nil => exact absurd rfl h
  | cons _ _ => rfl

/-- Applying `split` then `join` is the identity, as it is for JS `split`/`join`
with the same separator. -/
theorem joinSpace_splitSpace (l : List Char) : joinSpace (splitSpace l) = l := by
  induction l with
  | nil => rfl
  | cons c rest ih =>
    simp only [splitSpace]
    split
    · next hc =>
      rw [joinSpace_cons _ _ (splitSpace_ne_nil rest), ih]
      simp [hc]
    · next hc =>
      cases hs : splitSpace rest with
      | nil => exact absurd hs (splitSpace_ne_nil rest)
      | cons w ws =>
        rw [hs] at ih
        cases ws with
        | nil => simpa [joinSpace] using ih
        | cons w2 ws2 =>
          rw [joinSpace_cons _ _ (by simp)]
          rw [joinSpace_cons _ _ (by simp)] at ih
          simpa using ih

/-- No segment produced by `splitSpace` contains a space. -/
theorem splitSpace_no_space (l : List Char) :
    ∀ w ∈ splitSpace l, ' ' ∉ w := by
  induction l with
  | nil => intro w hw; simp [splitSpace] at hw; simp [hw]
  | cons c rest ih =>
    intro w hw
    simp only [splitSpace] at hw
    split at hw
    · rcases List.mem_cons.mp hw with h | h
      · simp [h]
      · exact ih w h
    · next hc =>
      cases hs : splitSpace rest with
      | nil => exact absurd hs (splitSpace_ne_nil rest)
      | cons v vs =>
        rw [hs] at hw
        rcases List.mem_cons.mp hw with h | h
        · subst h
          intro hmem
          rcases List.mem_cons.mp hmem with h' | h'
          · exact hc h'.symm
          · exact ih v (by simp [hs]) h'
        · exact ih w (by simp [hs, h])

theorem joinSpace_eq_head_glue (w : List Char) (ws : List (List Char)) :
    joinSpace (w :: ws) = w ++ spaceGlue ws := by
  induction ws generalizing w with
  | nil => simp [joinSpace, spaceGlue]
  | cons v vs ih =>
    rw [joinSpace_cons _ _ (by simp), ih v]
    simp [spaceGlue]

theorem joinSpace_append_one (xs : List (List Char)) (y : List Char) :
    joinSpace (xs ++ [y]) = if xs = [] then y else joinSpace xs ++ ' ' :: y := by
  induction xs with
  | nil => simp [joinSpace]
  | cons x xs ih =>
    cases xs with
    | nil => simp [joinSpace]
    | cons x2 xs2 =>
      rw [List.cons_append, joinSpace_cons _ _ (by simp), ih,
        if_neg (by simp), if_neg (by simp),
        joinSpace_cons x (x2 :: xs2) (by simp)]
      simp

/-- Invariant of the accumulation loop: starting from a non-empty current
line, folding any list of non-empty words keeps the current line non-empty
and extends the joined content by exactly those words, space-separated. -/
theorem chunkFold_content (ws : List (List Char)) :
    ∀ chunks cur, cur ≠ [] → (∀ w ∈ ws, w ≠ []) →
    (ws.foldl chunkFold (chunks, cur)).2 ≠ [] ∧
      joinSpace ((ws.foldl chunkFold (chunks, cur)).1 ++
          [(ws.foldl chunkFold (chunks, cur)).2]) =
        joinSpace (chunks ++ [cur]) ++ spaceGlue ws := by
  induction ws with
  | nil => intro chunks cur hcur _; exact ⟨hcur, by simp [spaceGlue]⟩
  | cons w ws ih =>
    intro chunks cur hcur hne
    have hw : w ≠ [] := hne w (by simp)
    have hws : ∀ v ∈ ws, v ≠ [] := fun v hv => hne v (by simp [hv])
    rw [List.foldl_cons]
    show (ws.foldl chunkFold (chunkFold (chunks, cur) w)).2 ≠ [] ∧ _
    simp only [chunkFold, hcur, if_pos, ne_eq, not_false_eq_true, if_true]
    by_cases hlong : (cur ++ ' ' :: w).length > 50
    · simp only [hlong, true_and, if_pos]
      obtain ⟨h1, h2⟩ := ih (chunks ++ [cur]) w hw hws
      refine ⟨h1, ?_⟩
      rw [h2]
      rw [joinSpace_append_one (chunks ++ [cur]) w,
        if_neg (by simp), joinSpace_append_one chunks cur]
      cases chunks with
      | nil => simp [joinSpace, spaceGlue]
      | cons c cs => simp [spaceGlue]
    · simp only [hlong, false_and, if_neg, if_false]
      obtain ⟨h1, h2⟩ := ih chunks (cur ++ ' ' :: w) (by simp) hws
      refine ⟨h1, ?_⟩
      rw [h2]
      rw [joinSpace_append_one chunks (cur ++ ' ' :: w), joinSpace_append_one chunks cur]
      cases chunks with
      | nil => simp [spaceGlue]
      | cons c cs => simp [spaceGlue]

theorem chunkFold_ok (ws : List (List Char)) :
    ∀ chunks cur, (∀ w ∈ ws, ' ' ∉ w) →
    (∀ c ∈ chunks, chunkOk c) → chunkOk cur →
    (∀ c ∈ (ws.foldl chunkFold (chunks, cur)).1, chunkOk c) ∧
      chunkOk (ws.foldl chunkFold (chunks, cur)).2 := by
  induction ws with
  | nil => intro chunks cur _ h1 h2; exact ⟨h1, h2⟩
  | cons w ws ih =>
    intro chunks cur hsp h1 h2
    have hw : ' ' ∉ w := hsp w (by simp)
    have hws : ∀ v ∈ ws, ' ' ∉ v := fun v hv => hsp v (by simp [hv])
    rw [List.foldl_cons]
    by_cases hcur : cur = []
    · have hstep : chunkFold (chunks, cur) w = (chunks, w) := by
        simp [chunkFold, hcur]
      rw [hstep]
      exact ih chunks w hws h1 (Or.inr hw)
    · by_cases hlong : cur.length + (w.length + 1) > 50
      · have hstep : chunkFold (chunks, cur) w = (chunks ++ [cur], w) := by
          simp [chunkFold, hcur]
          omega
        rw [hstep]
        refine ih _ _ hws ?_ (Or.inr hw)
        intro c hcmem
        rcases List.mem_append.mp hcmem with h | h
        · exact h1 c h
        · rw [List.mem_singleton.mp h]; exact h2
      · have hstep : chunkFold (chunks, cur) w = (chunks, cur ++ ' ' :: w) := by
          simp [chunkFold, hcur]
          omega
        rw [hstep]
        exact ih _ _ hws h1 (Or.inl (by simp; omega))

/-- Every chunk produced by `splitIntoChunks` either fits the 50-character
threshold or is a single (space-free) word; holds for every input text. -/
theorem splitIntoChunks_ok (text : List Char) :
    ∀ c ∈ splitIntoChunks text, c.length ≤ 50 ∨ ' ' ∉ c := by
  have h := chunkFold_ok (splitSpace text) [] []
    (splitSpace_no_space text) (by simp) (Or.inl (by simp))
  intro c hc
  unfold splitIntoChunks at hc
  simp only at hc
  split at hc
  · rcases List.mem_append.mp hc with hm | hm
    · exact h.1 c hm
    · rw [List.mem_singleton.mp hm]; exact h.2
  · exact h.1 c hc

/-- When every space-split segment of the text is non-empty (no leading or
trailing space, no run of consecutive spaces), joining the produced chunks
with single spaces reconstructs the text exactly. -/
theorem splitIntoChunks_join (text : List Char)
    (h : ∀ w ∈ splitSpace text, w ≠ []) :
    joinSpace (splitIntoChunks text) = text := by
  cases hs : splitSpace text with
  | nil => exact absurd hs (splitSpace_ne_nil text)
  | cons w ws =>
    have hw : w ≠ [] := h w (by simp [hs])
    have hws : ∀ v ∈ ws, v ≠ [] := fun v hv => h v (by simp [hs, hv])
    have hstep : chunkFold ([], []) w = ([], w) := by simp [chunkFold]
    obtain ⟨h1, h2⟩ := chunkFold_content ws [] w hw hws
    have htext := joinSpace_splitSpace text
    rw [hs, joinSpace_eq_head_glue] at htext
    simp only [splitIntoChunks, hs, List.foldl_cons, hstep]
    rw [if_pos h1, h2]
    simpa [joinSpace] using htext

theorem presentLoop_eq_intersperse (m : ℚ) (cs : List (List Char)) :
    presentLoop m cs =
      List.intersperse (.gap 100)
        (cs.map fun c => .display c ((wordCount c : ℚ) * m)) := by
  induction cs with
  | nil => rfl
  | cons c rest ih =>
    cases rest with
    | nil => rfl
    | cons c2 rest2 =>
      simp only [presentLoop, List.map_cons, List.intersperse]
      rw [ih]
      simp

theorem displayTotal_presentLoop (m : ℚ) (cs : List (List Char)) :
    displayTotal (presentLoop m cs) = (totalWordCount cs : ℚ) * m := by
  induction cs with
  | nil => simp [presentLoop, displayTotal, totalWordCount]
  | cons c rest ih =>
    cases rest with
    | nil => simp [presentLoop, displayTotal, totalWordCount]
    | cons c2 rest2 =>
      simp only [presentLoop, displayTotal] at *
      rw [ih]
      simp only [totalWordCount, List.map_cons, List.sum_cons]
      push_cast
      ring

theorem totalWordCount_pos (cs : List (List Char)) (h : cs ≠ []) :
    0 < totalWordCount cs := by
  cases cs with
  | nil => exact absurd rfl h
  | cons c rest =>
    have h1 : 0 < wordCount c := List.length_pos.mpr (splitSpace_ne_nil c)
    simp only [totalWordCount, List.map_cons, List.sum_cons]
    exact Nat.lt_of_lt_of_le h1 (Nat.le_add_right _ _)

/-- C1: for every non-empty chunk sequence and total duration `D`, the
presenter computes `msPerWord = D / totalWordCount`, displays each chunk in
order for `wordCount * msPerWord` with a fixed 100 ms cleared gap between
consecutive chunks and no gap after the final one, and the display
durations sum to exactly `D`; at `D = 3000` with word counts `[2, 3]` the
chunks are shown 1200 ms and 1800 ms with one 100 ms gap between. -/
theorem presenter_schedule (chunks : List (List Char)) (d : ℚ)
    (h : chunks ≠ []) :
    showSubtitlesWithAudio chunks d =
        List.intersperse (.gap 100)
          (chunks.map fun c =>
            .display c ((wordCount c : ℚ) * (d / (totalWordCount chunks : ℚ)))) ∧
      displayTotal (showSubtitlesWithAudio chunks d) = d ∧
      showSubtitlesWithAudio ["go now".toList, "we are here".toList] 3000 =
        [.display "go now".toList 1200, .gap 100,
          .display "we are here".toList 1800] := by
  refine ⟨presentLoop_eq_intersperse _ chunks, ?_, ?_⟩
  · show displayTotal (presentLoop _ chunks) = d
    rw [displayTotal_presentLoop]
    have hpos : 0 < totalWordCount chunks := totalWordCount_pos chunks h
    have hne : (totalWordCount chunks : ℚ) ≠ 0 := by exact_mod_cast hpos.ne'
    field_simp
  · have h1 : wordCount "go now".toList = 2 := by decide
    have h2 : wordCount "we are here".toList = 3 := by decide
    have ht : totalWordCount ["go now".toList, "we are here".toList] = 5 := by decide
    simp only [showSubtitlesWithAudio, ht, presentLoop, h1, h2]
    norm_num

/-- Witness for `presenter_schedule` at the claim's own scenario. -/
theorem presenter_schedule_witness :
    (["go now".toList, "we are here".toList] : List (List Char)) ≠ [] ∧
      displayTotal
        (showSubtitlesWithAudio ["go now".toList, "we are here".toList] 3000) = 3000 :=
  ⟨by decide, (presenter_schedule ["go now".toList, "we are here".toList] 3000 (by decide)).2.1⟩

/-- The C2 claim as stated is false: on the text `" a"` (leading space) the
chunker drops the leading separator, so rejoining its chunks with single
spaces yields `"a"`, not the original text. -/
theorem chunker_roundtrip_counterexample :
    joinSpace (splitIntoChunks " a".toList) ≠ " a".toList := by decide

/-- C2 (amended): for every text whose space-split segments are all
non-empty (no leading/trailing space, no consecutive spaces), joining the
chunks with single spaces reconstructs the text exactly; and for every
text whatsoever, every chunk fits within the 50-character threshold unless
it is a single space-free word (a long word is kept whole, never split
mid-word). -/
theorem chunker_roundtrip_and_fit (text : List Char)
    (h : ∀ w ∈ splitSpace text, w ≠ []) :
    joinSpace (splitIntoChunks text) = text ∧
      ∀ t : List Char, ∀ c ∈ splitIntoChunks t, c.length ≤ 50 ∨ ' ' ∉ c :=
  ⟨splitIntoChunks_join text h, fun t => splitIntoChunks_ok t⟩

/-- Witness for `chunker_roundtrip_and_fit` at the spec's own scenario
text `"Hello there friend"`. -/
theorem chunker_roundtrip_and_fit_witness :
    joinSpace (splitIntoChunks "Hello there friend".toList) =
        "Hello there friend".toList ∧
      ∀ t : List Char, ∀ c ∈ splitIntoChunks t, c.length ≤ 50 ∨ ' ' ∉ c :=
  chunker_roundtrip_and_fit "Hello there friend".toList (by decide)

/-- Any failure of the synthesis/decode pipeline lands in the `catch`,
which fires the fallback `onFinish()` once and never reaches the
duration/status-update code. -/
theorem playAudio_fail (env : PlayEnv) (cb : Bool) (h : synthesisFails env) :
    playElevenLabsAudio env cb = ⟨1, [], false⟩ := by
  unfold playElevenLabsAudio
  rcases h with h | ⟨s, h⟩ | h | h
  · rw [h]
  · rw [h]; simp
  · cases hf : env.fetch with
    | thrown => rfl
    | response ok s =>
      cases ok with
      | false => simp
      | true => simp [h]
  · cases hf : env.fetch with
    | thrown => rfl
    | response ok s =>
      cases ok with
      | false => simp
      | true => cases hw : env.writeOk <;> simp [h]

/-- C3: every session whose synthesis step fails (fetch rejection, non-ok
HTTP response, decode/write failure, load failure) still reaches its
terminal state through the same completion signal as success: `onFinish`
fires exactly once, the subtitle sequence never starts, and the display
stays empty. -/
theorem synthesis_failure_completes (env : PlayEnv) (text : List Char)
    (h : synthesisFails env) :
    (speakSession env text).onFinishCount = 1 ∧
      (speakSession env text).subtitleEvents = [] ∧
      lastSubtitle (speakSession env text).subtitleEvents = [] := by
  have hp := playAudio_fail env true h
  simp [speakSession, hp, lastSubtitle]

/-- Witness for `synthesis_failure_completes`: the speech provider answers
HTTP 500. -/
theorem synthesis_failure_completes_witness :
    (speakSession ⟨.response false 500, true, true, true, some 5000, false⟩
        "hello".toList).onFinishCount = 1 ∧
      (speakSession ⟨.response false 500, true, true, true, some 5000, false⟩
        "hello".toList).subtitleEvents = [] ∧
      lastSubtitle (speakSession ⟨.response false 500, true, true, true, some 5000, false⟩
        "hello".toList).subtitleEvents = [] :=
  synthesis_failure_completes _ _ (Or.inr (Or.inl ⟨500, rfl⟩))

/-- Every duration ever handed to `onDurationReady` is strictly positive:
the guard `status.isLoaded && status.durationMillis` filters out the absent
and the zero duration. -/
theorem playAudio_durationCalls_pos (env : PlayEnv) (cb : Bool) :
    ∀ d ∈ (playElevenLabsAudio env cb).durationCalls, 0 < d := by
  intro d hd
  rcases env with ⟨fetch, w, c, l, dur, f⟩
  rcases fetch with _ | ⟨ok, s⟩
  · simp [playElevenLabsAudio] at hd
  · cases ok
    · simp [playElevenLabsAudio] at hd
    · cases w
      · simp [playElevenLabsAudio] at hd
      · cases c
        · simp [playElevenLabsAudio] at hd
        · cases l
          · simp [playElevenLabsAudio] at hd
          · rcases dur with _ | n
            · simp [playElevenLabsAudio, jsTruthyNum] at hd
            · cases cb
              · simp [playElevenLabsAudio] at hd
              · by_cases hn : n = 0
                · simp [playElevenLabsAudio, jsTruthyNum, hn] at hd
                · simp [playElevenLabsAudio, jsTruthyNum, hn] at hd
                  omega

/-- When the initial status is not loaded or carries no (or a zero)
duration, `onDurationReady` is never invoked. -/
theorem playAudio_no_duration (env : PlayEnv) (cb : Bool)
    (h : env.statusLoaded = false ∨ jsTruthyNum env.durationMillis = false) :
    (playElevenLabsAudio env cb).durationCalls = [] := by
  rcases env with ⟨fetch, w, c, l, dur, f⟩
  rcases fetch with _ | ⟨ok, s⟩
  · simp [playElevenLabsAudio]
  · cases ok
    · simp [playElevenLabsAudio]
    · cases w
      · simp [playElevenLabsAudio]
      · cases c
        · simp [playElevenLabsAudio]
        · simp only at h
          rcases h with h | h <;> simp [playElevenLabsAudio, h]

/-- In every run in which playback eventually reports `didJustFinish` —
and in every failing run regardless — `onFinish` fires exactly once. -/
theorem playAudio_finish_on_playback (env : PlayEnv) (cb : Bool)
    (h : env.playbackFinishes = true) :
    (playElevenLabsAudio env cb).onFinishCount = 1 := by
  rcases env with ⟨fetch, w, c, l, dur, f⟩
  rcases fetch with _ | ⟨ok, s⟩
  · simp [playElevenLabsAudio]
  · cases ok
    · simp [playElevenLabsAudio]
    · cases w
      · simp [playElevenLabsAudio]
      · cases c
        · simp [playElevenLabsAudio]
        · simp only at h
          simp [playElevenLabsAudio, h]

/-- C9: when the audio loads but no duration is reported (initial status
not loaded, or `durationMillis` absent or zero), `onDurationReady` is never
invoked, so the subtitle sequence never starts and the display stays empty;
the session still completes once playback finishes; and every duration ever
passed onward is strictly positive. -/
theorem no_duration_no_subtitles (env : PlayEnv) (text : List Char)
    (h : env.statusLoaded = false ∨ jsTruthyNum env.durationMillis = false) :
    (playElevenLabsAudio env true).durationCalls = [] ∧
      (speakSession env text).subtitleEvents = [] ∧
      lastSubtitle (speakSession env text).subtitleEvents = [] ∧
      (env.playbackFinishes = true → (speakSession env text).onFinishCount = 1) ∧
      ∀ env' cb, ∀ d ∈ (playElevenLabsAudio env' cb).durationCalls, 0 < d := by
  have hnd := playAudio_no_duration env true h
  refine ⟨hnd, ?_, ?_, ?_, fun env' cb => playAudio_durationCalls_pos env' cb⟩
  · simp [speakSession, hnd]
  · simp [speakSession, hnd, lastSubtitle]
  · intro hfin
    have := playAudio_finish_on_playback env true hfin
    simp [speakSession, hnd, this]

/-- Witness for `no_duration_no_subtitles`: the load status reports a
duration of `0`. -/
theorem no_duration_no_subtitles_witness :
    (playElevenLabsAudio ⟨.response true 200, true, true, true, some 0, true⟩
        true).durationCalls = [] ∧
      (speakSession ⟨.response true 200, true, true, true, some 0, true⟩
        "hello".toList).subtitleEvents = [] ∧
      lastSubtitle (speakSession ⟨.response true 200, true, true, true, some 0, true⟩
        "hello".toList).subtitleEvents = [] ∧
      ((⟨.response true 200, true, true, true, some 0, true⟩ : PlayEnv).playbackFinishes = true →
        (speakSession ⟨.response true 200, true, true, true, some 0, true⟩
          "hello".toList).onFinishCount = 1) ∧
      ∀ env' cb, ∀ d ∈ (playElevenLabsAudio env' cb).durationCalls, 0 < d :=
  no_duration_no_subtitles _ _ (Or.inr (by decide))

theorem loadSound_inv (st : ControllerState) (b : ℕ) (h : controllerInv st) :
    controllerInv (loadSound st b).1 := by
  unfold controllerInv at *
  cases hc : st.current with
  | none => simp [loadSound, hc, h, hc ▸ h]
  | some a => simp [loadSound, hc, hc ▸ h]

theorem runLoads_inv (ids : List ℕ) :
    ∀ st : ControllerState, controllerInv st → controllerInv (runLoads st ids) := by
  induction ids with
  | nil => intro st h; exact h
  | cons id ids ih =>
    intro st h
    exact ih _ (loadSound_inv st id h)

theorem controllerInv_length (st : ControllerState) (h : controllerInv st) :
    st.live.length ≤ 1 := by
  unfold controllerInv at h
  rw [h]
  cases st.current <;> simp

/-- C4: the controller never holds two live audio resources. Loading `b`
while `a` is loaded emits `unload a` strictly before `create b`/`assign b`,
afterwards exactly `b` is live, and across any sequence of consecutive
loads at most one resource is ever live. -/
theorem controller_single_resource (st : ControllerState) (b : ℕ)
    (hinv : controllerInv st) :
    controllerInv (loadSound st b).1 ∧
      (loadSound st b).1.live = [b] ∧
      (∀ a, st.current = some a →
        (loadSound st b).2 = [.unload a, .create b, .assign b]) ∧
      ∀ ids st0, controllerInv st0 →
        controllerInv (runLoads st0 ids) ∧ (runLoads st0 ids).live.length ≤ 1 := by
  refine ⟨loadSound_inv st b hinv, ?_, ?_, ?_⟩
  · unfold controllerInv at hinv
    cases hc : st.current with
    | none => simp [loadSound, hc, hc ▸ hinv]
    | some a => simp [loadSound, hc, hc ▸ hinv]
  · intro a ha
    simp [loadSound, ha]
  · intro ids st0 h0
    have h1 := runLoads_inv ids st0 h0
    exact ⟨h1, controllerInv_length _ h1⟩

/-- Witness for `controller_single_resource`: resource 7 is loaded while
resource 3 is held. -/
theorem controller_single_resource_witness :
    controllerInv ((loadSound ⟨some 3, [3]⟩ 7).1) ∧
      (loadSound ⟨some 3, [3]⟩ 7).1.live = [7] ∧
      (∀ a, (⟨some 3, [3]⟩ : ControllerState).current = some a →
        (loadSound ⟨some 3, [3]⟩ 7).2 = [.unload a, .create 7, .assign 7]) ∧
      ∀ ids st0, controllerInv st0 →
        controllerInv (runLoads st0 ids) ∧ (runLoads st0 ids).live.length ≤ 1 :=
  controller_single_resource ⟨some 3, [3]⟩ 7 rfl

/-- The C7 claim as stated is false on the code: the unmount cleanup
(`if (soundRef.current) soundRef.current.unloadAsync()`) neither clears the
subtitle display nor cancels the pending subtitle timers — on a state
showing "Hello" with timers pending, both survive the cleanup. -/
theorem cleanup_counterexample :
    (unmountCleanup ⟨some 0, "Hello".toList, 3⟩).1.currentSubtitle ≠ [] ∧
      (unmountCleanup ⟨some 0, "Hello".toList, 3⟩).1.pendingSubtitleTimers ≠ 0 := by
  decide

/-- C7 (amended): superseding a session releases the in-flight audio
resource — the unmount cleanup unloads the currently held sound, and a new
load unloads the previous sound before assigning the new one — and throws
nothing; but the timer-driven subtitle sequence is not stopped and the
subtitle display is not cleared by the cleanup: both are left untouched. -/
theorem cleanup_releases_audio_only (st : ScreenState) (a : ℕ)
    (h : st.sound = some a) :
    (unmountCleanup st).2 = [.unload a] ∧
      (unmountCleanup st).1.currentSubtitle = st.currentSubtitle ∧
      (unmountCleanup st).1.pendingSubtitleTimers = st.pendingSubtitleTimers ∧
      ∀ st' b old, st'.current = some old →
        (loadSound st' b).2 = [.unload old, .create b, .assign b] := by
  refine ⟨?_, ?_, ?_, ?_⟩
  · simp [unmountCleanup, h]
  · simp [unmountCleanup, h]
  · simp [unmountCleanup, h]
  · intro st' b old hold
    simp [loadSound, hold]

/-- Witness for `cleanup_releases_audio_only` at a concrete screen state. -/
theorem cleanup_releases_audio_only_witness :
    (unmountCleanup ⟨some 2, "hi".toList, 1⟩).2 = [.unload 2] ∧
      (unmountCleanup ⟨some 2, "hi".toList, 1⟩).1.currentSubtitle =
        (⟨some 2, "hi".toList, 1⟩ : ScreenState).currentSubtitle ∧
      (unmountCleanup ⟨some 2, "hi".toList, 1⟩).1.pendingSubtitleTimers =
        (⟨some 2, "hi".toList, 1⟩ : ScreenState).pendingSubtitleTimers ∧
      ∀ st' b old, st'.current = some old →
        (loadSound st' b).2 = [.unload old, .create b, .assign b] :=
  cleanup_releases_audio_only ⟨some 2, "hi".toList, 1⟩ 2 rfl

/-- C5: a raw message that throws in `JSON.parse` inside the surface
listener performs no action (the catch only logs); a parsed command whose
`action` is not `switchToTalking` performs no action; and the host-side
`onMessage` handler — which never parses at all — leaves the error state
untouched on any message matching none of the marker substrings. Both
handlers are total functions: no input raises. -/
theorem bridge_garbage_ignored (raw : List Char) (err : Option (List Char))
    (act : Option (List Char))
    (h1 : jsIncludes raw failedMarker = false)
    (h2 : jsIncludes raw fatalMarker = false)
    (h3 : jsIncludes raw avatarLoadedMarker = false)
    (h4 : jsIncludes raw sceneReadyMarker = false)
    (hact : act ≠ some switchToTalkingAction) :
    avatarOnMessage raw err = err ∧
      surfaceMessageListener .thrown = [] ∧
      surfaceMessageListener (.parsed act) = [] := by
  refine ⟨?_, rfl, ?_⟩
  · simp [avatarOnMessage, h1, h2, h3, h4]
  · simp [surfaceMessageListener, hact]

/-- Witness for `bridge_garbage_ignored`: non-JSON garbage and an unknown
action value. -/
theorem bridge_garbage_ignored_witness :
    avatarOnMessage "garbage <<not json>>".toList (some "old".toList) =
        some "old".toList ∧
      surfaceMessageListener .thrown = [] ∧
      surfaceMessageListener (.parsed (some "dance".toList)) = [] :=
  bridge_garbage_ignored "garbage <<not json>>".toList (some "old".toList)
    (some "dance".toList) (by decide) (by decide) (by decide) (by decide) (by decide)

/-- C6: the host classifies surface events by substring markers — a message
containing `"Avatar loaded"` or `"Scene ready"` clears any prior error
state; a message containing `"Failed"` or `"Fatal"` (and no success marker)
sets the error to that message; in particular the surface emitting
`"Avatar loaded"` clears any prior error. -/
theorem bridge_success_clears_error (raw : List Char) (err : Option (List Char)) :
    ((jsIncludes raw avatarLoadedMarker || jsIncludes raw sceneReadyMarker) = true →
        avatarOnMessage raw err = none) ∧
      ((jsIncludes raw failedMarker || jsIncludes raw fatalMarker) = true →
        (jsIncludes raw avatarLoadedMarker || jsIncludes raw sceneReadyMarker) = false →
        avatarOnMessage raw err = some raw) ∧
      avatarOnMessage avatarLoadedMarker err = none := by
  refine ⟨?_, ?_, ?_⟩
  · intro h
    simp only [avatarOnMessage]
    rw [if_pos h]
  · intro h1 h2
    simp only [avatarOnMessage]
    rw [if_neg (by simp [h2]), if_pos h1]
  · have hl : (jsIncludes avatarLoadedMarker avatarLoadedMarker ||
        jsIncludes avatarLoadedMarker sceneReadyMarker) = true := by decide
    simp only [avatarOnMessage]
    rw [if_pos hl]

/-- Witness for `bridge_success_clears_error`: `"Avatar loaded"` arrives
while a fatal error is displayed. -/
theorem bridge_success_clears_error_witness :
    avatarOnMessage avatarLoadedMarker (some "Fatal error: boom".toList) = none :=
  (bridge_success_clears_error avatarLoadedMarker
    (some "Fatal error: boom".toList)).1 (by decide)

/-- C8: every synthesis call constructs exactly one outbound POST request
carrying the provider API key header and the fixed JSON body shape
`{ text, model_id, voice_settings: { stability, similarity_boost, style,
use_speaker_boost } }`; the voice identifier is drawn from the fixed
enumerated set — one narrator voice, and distinct male/female greeting
voices selected by `avatarGender`. -/
theorem synthesis_request_shape (text : List Char) (g : AvatarGender) :
    (narrationRequests text).length = 1 ∧
      (greetingRequests g text).length = 1 ∧
      (∀ r ∈ narrationRequests text,
        r.method = "POST".toList ∧
        r.apiKeyHeader = "xi-api-key".toList ∧
        r.text = text ∧
        r.model_id = "eleven_flash_v2_5".toList ∧
        r.voice_settings = ⟨7 / 10, 5 / 10, 0, false⟩ ∧
        r.voiceId = narratorVoiceId ∧ r.voiceId ∈ fixedVoiceIds) ∧
      (∀ r ∈ greetingRequests g text,
        r.method = "POST".toList ∧
        r.apiKeyHeader = "xi-api-key".toList ∧
        r.text = text ∧
        r.model_id = "eleven_flash_v2_5".toList ∧
        r.voice_settings = ⟨7 / 10, 5 / 10, 0, false⟩ ∧
        r.voiceId = greetingVoiceId g ∧ r.voiceId ∈ fixedVoiceIds) ∧
      greetingVoiceId .male ≠ greetingVoiceId .female ∧
      greetingVoiceId .male ≠ narratorVoiceId ∧
      greetingVoiceId .female ≠ narratorVoiceId := by
  refine ⟨rfl, rfl, ?_, ?_, by decide, by decide, by decide⟩
  · intro r hr
    rw [List.mem_singleton.mp hr]
    refine ⟨rfl, rfl, rfl, rfl, rfl, rfl, by simp [fixedVoiceIds, mkTTSRequest]⟩
  · intro r hr
    rw [List.mem_singleton.mp hr]
    refine ⟨rfl, rfl, rfl, rfl, rfl, rfl, ?_⟩
    cases g <;> simp [fixedVoiceIds, mkTTSRequest, greetingVoiceId]

/-- Witness for `synthesis_request_shape` at a concrete text and gender. -/
theorem synthesis_request_shape_witness :
    (narrationRequests "hi".toList).length = 1 ∧
      greetingVoiceId .male ≠ greetingVoiceId .female :=
  ⟨(synthesis_request_shape "hi".toList .male).1,
    (synthesis_request_shape "hi".toList .male).2.2.2.2.1⟩

theorem runAcceptedEffects_bound (inputs : List (Bool × Bool)) :
    ∀ st : GreetingState,
      (runAcceptedEffects st inputs).switchMsgCount ≤
          st.switchMsgCount + (if st.hasPlayedGreeting then 0 else 1) ∧
        (runAcceptedEffects st inputs).greetingStartCount ≤
          st.greetingStartCount + (if st.hasPlayedGreeting then 0 else 1) := by
  induction inputs with
  | nil => intro st; constructor <;> simp [runAcceptedEffects]
  | cons p rest ih =>
    intro st
    rcases p with ⟨a, w⟩
    simp only [runAcceptedEffects]
    by_cases hcond : (a && w && !st.hasPlayedGreeting) = true
    · have hflag : st.hasPlayedGreeting = false := by
        revert hcond
        cases st.hasPlayedGreeting <;> simp
      have hst : acceptedEffect a w st =
          ⟨true, st.switchMsgCount + 1, st.greetingStartCount + 1⟩ := by
        simp [acceptedEffect, hcond]
      rw [hst]
      obtain ⟨i1, i2⟩ := ih ⟨true, st.switchMsgCount + 1, st.greetingStartCount + 1⟩
      simp only [if_true] at i1 i2
      rw [hflag]
      constructor <;> simp at * <;> omega
    · have hst : acceptedEffect a w st = st := by
        simp only [acceptedEffect]
        rw [if_neg hcond]
      rw [hst]
      exact ih st

/-- C10: over any sequence of runs of the `accepted` effect — whatever the
`accepted` prop and webview availability are at each run — the
`switchToTalking` bridge command is posted at most once and the spoken
greeting is started at most once, guarded by `hasPlayedGreeting`. -/
theorem greeting_at_most_once (inputs : List (Bool × Bool)) :
    (runAcceptedEffects initialGreetingState inputs).switchMsgCount ≤ 1 ∧
      (runAcceptedEffects initialGreetingState inputs).greetingStartCount ≤ 1 := by
  obtain ⟨h1, h2⟩ := runAcceptedEffects_bound inputs initialGreetingState
  simp only [initialGreetingState] at h1 h2 ⊢
  simp only [Bool.false_eq_true, if_false] at h1 h2
  exact ⟨by omega, by omega⟩

end Tava
